import Mathlib

/-!
Shallow embedding of `src/run_learned_metrics.py` from the llm-rag-eval
repository, together with theorems settling the frozen claims about it.

The visible source is a command-line driver: it parses arguments, streams a
JSONL evaluation dataset, dispatches each record (via a `match` on
`Metrics(metric)`) to one of several opaque metric-computation routines from
the `learned` package, and writes a TSV report.  The opaque routines are
modelled as an oracle parameter mapping the call (routine name and arguments)
to a result or a raised exception; everything else is translated directly
from the source.
-/

namespace LRE

/-- Decidable equality for `Except`, used to evaluate the embedding on
concrete inputs. -/
instance {ε α : Type} [DecidableEq ε] [DecidableEq α] : DecidableEq (Except ε α) :=
  fun x y =>
    match x, y with
    | .ok a, .ok b => if h : a = b then isTrue (by rw [h]) else isFalse (by simp [h])
    | .error a, .error b => if h : a = b then isTrue (by rw [h]) else isFalse (by simp [h])
    | .ok _, .error _ => isFalse (by simp)
    | .error _, .ok _ => isFalse (by simp)

/-- The members of the `Metrics` enumeration.  The member names are exactly
those matched on in `run_learned_metrics.py` (`Metrics.FAITHFULNESS`, ...). -/
inductive Metrics where
  | FAITHFULNESS
  | ANSWER_RELEVANCE
  | CONTEXT_PRECISION
  | CONTEXT_UTILIZATION
  | CONTEXT_RELEVANCE
  | CONTEXT_RECALL
  | ANSWER_SIMILARITY
  | ANSWER_CORRECTNESS
deriving DecidableEq

/-- Modelled from the spec: the file `metrics.py` defining the `Metrics`
enumeration is not under `src/`; only its member names appear in the visible
driver.  The spec names the metrics "faithfulness, answer relevance, context
precision/recall/relevance, answer correctness", so each member's `.value`
string is modelled as the lowercase snake_case form of its name. -/
def Metrics.value : Metrics → String
  | .FAITHFULNESS => "faithfulness"
  | .ANSWER_RELEVANCE => "answer_relevance"
  | .CONTEXT_PRECISION => "context_precision"
  | .CONTEXT_UTILIZATION => "context_utilization"
  | .CONTEXT_RELEVANCE => "context_relevance"
  | .CONTEXT_RECALL => "context_recall"
  | .ANSWER_SIMILARITY => "answer_similarity"
  | .ANSWER_CORRECTNESS => "answer_correctness"

/-- Iteration order over the enumeration (`for m in Metrics`). -/
def Metrics.members : List Metrics :=
  [.FAITHFULNESS, .ANSWER_RELEVANCE, .CONTEXT_PRECISION, .CONTEXT_UTILIZATION,
   .CONTEXT_RELEVANCE, .CONTEXT_RECALL, .ANSWER_SIMILARITY, .ANSWER_CORRECTNESS]

/-- Models `Metrics(metric)`: value-based lookup of an enumeration member;
`none` models the `ValueError` raised when no member has that value. -/
def Metrics.ofValue (s : String) : Option Metrics :=
  Metrics.members.find? (fun m => m.value = s)

/-- Strict lexicographic comparison of character lists by code point, the
order Python uses on strings. -/
def charsLt : List Char → List Char → Bool
  | [], [] => false
  | [], _ :: _ => true
  | _ :: _, [] => false
  | a :: as, b :: bs =>
      if a.toNat < b.toNat then true
      else if b.toNat < a.toNat then false
      else charsLt as bs

/-- Models `a <= b` on Python strings. -/
def strLe (a b : String) : Bool := !(charsLt b.data a.data)

/-- Insertion of a string into an already sorted list, for `sorted(...)`. -/
def insertSorted (s : String) : List String → List String
  | [] => [s]
  | t :: ts => if strLe s t then s :: t :: ts else t :: insertSorted s ts

/-- Insertion sort on strings, modelling Python `sorted`. -/
def sortStrings : List String → List String
  | [] => []
  | s :: ss => insertSorted s (sortStrings ss)

/-- Models `choices=sorted([m.value for m in Metrics])` of the `--metric` argument. -/
def choices : List String :=
  sortStrings (Metrics.members.map Metrics.value)

/-- One element of a record's `"context"` list; `chunk_text` is `none` when
the `"chunk_text"` key is absent from the JSON object. -/
structure RawCtx where
  chunk_text : Option String
deriving DecidableEq

/-- One line of the JSONL input after `json.loads`: each field is `none`
when the corresponding key is absent from the JSON object. -/
structure RawRecord where
  id : Option String
  query : Option String
  predicted_answer : Option String
  ideal_answer : Option String
  context : Option (List RawCtx)
deriving DecidableEq

/-- The Python exceptions the driver can raise while processing. -/
inductive PyError where
  | keyError (k : String)
  | valueError
  | notImplementedError (msg : String)
  | computeError (msg : String)
deriving DecidableEq

/-- Models `record[k]`: subscripting a JSON object raises `KeyError` on a missing
key. -/
def getField {α : Type} (v : Option α) (k : String) : Except PyError α :=
  match v with
  | some x => .ok x
  | none => .error (.keyError k)

/-- The value of a non-empty run of decimal digit characters, accumulated
left to right; `none` on a non-digit. -/
def digitsValAux : List Char → Nat → Option Nat
  | [], acc => some acc
  | c :: cs, acc =>
      if c.isDigit then digitsValAux cs (acc * 10 + (c.toNat - 48)) else none

/-- The value of a decimal digit string; `none` when empty or containing a
non-digit. -/
def digitsVal : List Char → Option Nat
  | [] => none
  | cs => digitsValAux cs 0

/-- Parsing of a Python integer literal: an optional sign followed by
digits. -/
def pyToInt? (s : String) : Option Int :=
  match s.data with
  | '-' :: rest => (digitsVal rest).map (fun n => -(n : Int))
  | '+' :: rest => (digitsVal rest).map (fun n => (n : Int))
  | cs => (digitsVal cs).map (fun n => (n : Int))

/-- Models `int(s)`: conversion of a string to an integer, raising `ValueError`
when the string is not an integer literal. -/
def pyInt (s : String) : Except PyError Int :=
  match pyToInt? s with
  | some n => .ok n
  | none => .error .valueError

/-- A call to one of the opaque metric-computation routines imported from the
`learned` package: the routine's name and the arguments it receives, in the
source's positional order.  `optimized_prompts` is the dictionary the driver
passes to every routine (always `{}` in the source, modelled as an
association list). -/
inductive ComputeCall where
  | compute_faithfulness (question answer : String) (context : List String)
      (optimized_prompts : List (String × String))
  | compute_answer_relevance (question : String) (context : List String)
      (answer : String) (optimized_prompts : List (String × String))
  | compute_context_precision (question answer : String) (context : List String)
      (optimized_prompts : List (String × String))
  | compute_context_relevance (question : String) (context : List String)
      (optimized_prompts : List (String × String))
  | compute_context_recall (context : List String) (answer : String)
      (optimized_prompts : List (String × String))
  | compute_answer_correctness (ideal_answer answer : String)
      (optimized_prompts : List (String × String))
deriving DecidableEq

/-- The name of the routine a `ComputeCall` invokes. -/
def ComputeCall.routineName : ComputeCall → String
  | .compute_faithfulness .. => "compute_faithfulness"
  | .compute_answer_relevance .. => "compute_answer_relevance"
  | .compute_context_precision .. => "compute_context_precision"
  | .compute_context_relevance .. => "compute_context_relevance"
  | .compute_context_recall .. => "compute_context_recall"
  | .compute_answer_correctness .. => "compute_answer_correctness"

/-- Outcome of one arm of the `match Metrics(metric)` statement:
a routine call, the `raise NotImplementedError(...)` arm, or the wildcard
`case _` arm (which prints "Unsupported metric").  `matchDispatch` covers
every enumeration member explicitly, exactly as the source does, so its
wildcard arm is dead code there. -/
inductive MatchResult where
  | call (c : ComputeCall)
  | raiseNotImplemented (msg : String)
  | unsupported (metric : String)
deriving DecidableEq

/-- The `match Metrics(metric)` statement of the driver, arm by arm, on an
enumeration member.  Note `CONTEXT_UTILIZATION` reuses
`compute_context_precision` with `answer` in place of `ideal_answer`. -/
def matchDispatch (m : Metrics) (question answer ideal_answer : String)
    (context : List String) (optimized_prompts : List (String × String)) :
    MatchResult :=
  match m with
  | .FAITHFULNESS =>
      .call (.compute_faithfulness question answer context optimized_prompts)
  | .ANSWER_RELEVANCE =>
      .call (.compute_answer_relevance question context answer optimized_prompts)
  | .CONTEXT_PRECISION =>
      .call (.compute_context_precision question ideal_answer context optimized_prompts)
  | .CONTEXT_UTILIZATION =>
      .call (.compute_context_precision question answer context optimized_prompts)
  | .CONTEXT_RELEVANCE =>
      .call (.compute_context_relevance question context optimized_prompts)
  | .CONTEXT_RECALL =>
      .call (.compute_context_recall context answer optimized_prompts)
  | .ANSWER_SIMILARITY =>
      .raiseNotImplemented "Use prompted version of answer similarity"
  | .ANSWER_CORRECTNESS =>
      .call (.compute_answer_correctness ideal_answer answer optimized_prompts)

/-- The `match Metrics(metric)` statement starting from the metric string:
`Metrics(metric)` raises `ValueError` when the string is not a member value,
before any arm is considered. -/
def matchOnMetricString (metric : String) (question answer ideal_answer : String)
    (context : List String) (optimized_prompts : List (String × String)) :
    Except PyError MatchResult :=
  match Metrics.ofValue metric with
  | some m => .ok (matchDispatch m question answer ideal_answer context optimized_prompts)
  | none => .error .valueError

/-- The command line as argparse sees it: for each optional argument, the
typed value when it was supplied and `none` otherwise; for the two
`action` flags, whether the flag appeared. -/
structure RawArgs where
  metric : Option String
  input : Option String
  output : Option String
  cross_encoder_flag : Bool
  model_temp : Option Rat
  qs_to_skip : Option String
  qs_to_use : Option String
  debug_flag : Bool
deriving DecidableEq

/-- The namespace returned by `parser.parse_args()` on success.
`--cross-encoder` is declared with `action="store_false"`, so
`args.cross_encoder` is `True` by default and `False` when the flag
appears. -/
structure Args where
  metric : String
  input : String
  output : String
  cross_encoder : Bool
  model_temp : Option Rat
  qs_to_skip : Option String
  qs_to_use : Option String
  debug : Bool
deriving DecidableEq

/-- Models `parser.parse_args()`: rejects the command line (argparse exits with a
usage error) when a `required=True` argument is missing or when the
`--metric` value is not among `choices`. -/
def parse_args (a : RawArgs) : Except String Args :=
  match a.metric with
  | none => .error "the following arguments are required: --metric"
  | some m =>
      if m ∈ choices then
        match a.input with
        | none => .error "the following arguments are required: --input"
        | some i =>
            match a.output with
            | none => .error "the following arguments are required: --output"
            | some o =>
                .ok { metric := m, input := i, output := o,
                      cross_encoder := !a.cross_encoder_flag,
                      model_temp := a.model_temp,
                      qs_to_skip := a.qs_to_skip,
                      qs_to_use := a.qs_to_use,
                      debug := a.debug_flag }
      else .error ("argument --metric: invalid choice: " ++ m)

/-- Helper for `s.split(',')`: the remaining characters and the current
segment accumulated in reverse. -/
def splitCommaAux : List Char → List Char → List String
  | [], acc => [String.mk acc.reverse]
  | c :: cs, acc =>
      if c = ',' then String.mk acc.reverse :: splitCommaAux cs []
      else splitCommaAux cs (c :: acc)

/-- Models `s.split(',')`: the comma-separated segments, `[""]` for the empty
string, exactly as in Python. -/
def splitComma (s : String) : List String := splitCommaAux s.data []

/-- Models `list(map(int, s.split(',')))` applied to an optional argument, with
`[]` when the argument was not supplied (the `if qs_to_skip is None`
branches of the driver). -/
def parseQs (s : Option String) : Except PyError (List Int) :=
  match s with
  | none => .ok []
  | some str => (splitComma str).mapM pyInt

/-- The model-temperature normalisation of the driver: out-of-range or
missing values fall back to 0.0. -/
def normalizeTemp (t : Option Rat) : Rat :=
  match t with
  | none => 0
  | some v => if v > 1 ∨ v < 0 then 0 else v

/-- An oracle giving the behaviour of the opaque `learned` routines: the
result of a call, or the exception it raises. -/
def Oracle : Type := ComputeCall → Except PyError Rat

/-- What one loop iteration contributes: nothing (the `continue` of the
skip check), or one report row. -/
inductive LineResult where
  | skipped
  | row (id : String) (value : Rat)
deriving DecidableEq

/-- Models the list comprehension
`[ctx["chunk_text"] for ctx in record["context"]]`: extract each element's
chunk text left to right, raising `KeyError` at the first element lacking
the key. -/
def getChunks : List RawCtx → Except PyError (List String)
  | [] => .ok []
  | c :: cs => do
      let t ← getField c.chunk_text "chunk_text"
      let ts ← getChunks cs
      return t :: ts

/-- The loop body of `for line in fin` up to and including the `match`
statement, for one record after `json.loads`: read `"id"`, apply the skip
check (`use_qs` overrides `skip_qs`), read the remaining fields, and select
the arm of `match Metrics(metric)`.  Returns `none` for a skipped record
(`continue`), otherwise the record's id together with the selected arm;
any raised exception propagates as `.error` — the loop body contains no
`try`. -/
def lineDispatch (metric : String) (skip_qs use_qs : List Int)
    (record : RawRecord) : Except PyError (Option (String × MatchResult)) := do
  let id ← getField record.id "id"
  let idInt ← pyInt id
  if idInt ∈ skip_qs ∧ idInt ∉ use_qs then
    return none
  else
    let question ← getField record.query "query"
    let ctxs ← getField record.context "context"
    let context ← getChunks ctxs
    let answer ← getField record.predicted_answer "predicted_answer"
    let ideal_answer ← getField record.ideal_answer "ideal_answer"
    let res ← matchOnMetricString metric question answer ideal_answer context []
    return some (id, res)

/-- The complete loop body for one record: the dispatch above followed by
running the selected arm against the oracle. -/
def processLine (oracle : Oracle) (metric : String) (skip_qs use_qs : List Int)
    (record : RawRecord) : Except PyError LineResult := do
  match ← lineDispatch metric skip_qs use_qs record with
  | none => return .skipped
  | some (id, .call c) => do
      let metric_value ← oracle c
      return .row id metric_value
  | some (_, .raiseNotImplemented msg) => .error (.notImplementedError msg)
  | some (_, .unsupported _) =>
      -- The wildcard arm prints and falls through to the report write with
      -- `metric_value` unbound; it is dead code (see the C6 theorem),
      -- modelled as the NameError its first execution would raise.
      .error .valueError

/-- The compute call a record gives rise to, when the loop body reaches one
of the `learned` routines: used to trace which routines a run invokes. -/
def callsOfLine (metric : String) (skip_qs use_qs : List Int)
    (record : RawRecord) : List ComputeCall :=
  match lineDispatch metric skip_qs use_qs record with
  | .ok (some (_, .call c)) => [c]
  | _ => []

/-- Round-half-even of `x * 1000` to an integer, computed on the
numerator/denominator representation: this is the rounding Python's
fixed-point formatting performs at three fractional digits.  Writing
`p = 1000 * num` and `d = den > 0`, the floor is `p fdiv d` with
remainder `r`, and the fractional part compares to one half as `2 * r`
compares to `d`. -/
def scaled3 (x : Rat) : Int :=
  let p : Int := x.num * 1000
  let d : Int := (x.den : Int)
  let q : Int := Int.fdiv p d
  let r : Int := p - q * d
  if 2 * r < d then q
  else if d < 2 * r then q + 1
  else if q % 2 = 0 then q else q + 1

/-- The digit character for `n < 10`. -/
def digitChar (n : Nat) : Char := Char.ofNat (48 + n)

/-- A natural number below 1000 as exactly three decimal digits. -/
def pad3 (n : Nat) : String :=
  String.mk [digitChar (n / 100 % 10), digitChar (n / 10 % 10), digitChar (n % 10)]

/-- Models the f-string conversion `.3f`: fixed-point formatting with three digits after the
point (metric values modelled as rationals). -/
def format3 (x : Rat) : String :=
  let n := scaled3 x
  let sign := if n < 0 then "-" else ""
  sign ++ toString (n.natAbs / 1000) ++ "." ++ pad3 (n.natAbs % 1000)

/-- Models `c.upper()` on an ASCII character (the metric names are ASCII). -/
def pyCharUpper (c : Char) : Char :=
  if 97 ≤ c.toNat ∧ c.toNat ≤ 122 then Char.ofNat (c.toNat - 32) else c

/-- Models `s.upper()`. -/
def pyUpper (s : String) : String := String.mk (s.data.map pyCharUpper)

/-- The header line `"\t".join(["#QID", metric.upper()]) + "\n"`. -/
def headerLine (metric : String) : String :=
  "#QID" ++ "\t" ++ pyUpper metric ++ "\n"

/-- One report row `f"{id}\t{metric_value:.3f}\n"`. -/
def rowLine (id : String) (value : Rat) : String :=
  id ++ "\t" ++ format3 value ++ "\n"

/-- The `for line in fin` loop over the parsed lines of the input file:
the text written to the report after the header, and the exception that
ended the loop early, if any.  An `.error` from a loop body stops the
loop at once — there is no handler — and nothing is written for that
record. -/
def runLoop (oracle : Oracle) (metric : String) (skip_qs use_qs : List Int) :
    List RawRecord → String × Option PyError
  | [] => ("", none)
  | r :: rs =>
      match processLine oracle metric skip_qs use_qs r with
      | .error e => ("", some e)
      | .ok .skipped => runLoop oracle metric skip_qs use_qs rs
      | .ok (.row id v) =>
          let rest := runLoop oracle metric skip_qs use_qs rs
          (rowLine id v ++ rest.1, rest.2)

/-- Every compute call a run's loop makes, in order, up to the first
exception. -/
def runCalls (oracle : Oracle) (metric : String) (skip_qs use_qs : List Int) :
    List RawRecord → List ComputeCall
  | [] => []
  | r :: rs =>
      match processLine oracle metric skip_qs use_qs r with
      | .error _ => callsOfLine metric skip_qs use_qs r
      | .ok _ => callsOfLine metric skip_qs use_qs r
          ++ runCalls oracle metric skip_qs use_qs rs

/-- Whether a string starts with the path separator. -/
def startsWithSlash (s : String) : Bool :=
  match s.data with
  | '/' :: _ => true
  | _ => false

/-- Whether a string ends with the path separator. -/
def endsWithSlash (s : String) : Bool :=
  match s.data.getLast? with
  | some '/' => true
  | _ => false

/-- Models `os.path.join` for the two-argument case the driver uses. -/
def osPathJoin (a b : String) : String :=
  if startsWithSlash b then b
  else if a = "" ∨ endsWithSlash a then a ++ b
  else a ++ "/" ++ b

/-- How a run of `runner()` ends: rejected by argparse before any input is
touched; crashed while converting `--qs_to_skip`/`--qs_to_use` to integer
lists (before the report file is created); or the loop ran, creating the
report at `path` with final contents `content`, `err` being the exception
that aborted the loop, if any. -/
inductive RunOutcome where
  | usageError (msg : String)
  | crashedBeforeOpen (e : PyError)
  | ran (path : String) (content : String) (err : Option PyError)
deriving DecidableEq

/-- The whole of `runner()`, with the input file's parsed lines supplied as
a list and the opaque metric routines as an oracle: parse arguments,
derive `skip_qs` and `use_qs`, open the report, write the header, run the
loop. -/
def runner (oracle : Oracle) (a : RawArgs) (inputLines : List RawRecord) :
    RunOutcome :=
  match parse_args a with
  | .error msg => .usageError msg
  | .ok args =>
      match parseQs args.qs_to_skip with
      | .error e => .crashedBeforeOpen e
      | .ok skip_qs =>
          match parseQs args.qs_to_use with
          | .error e => .crashedBeforeOpen e
          | .ok use_qs =>
              let output_fp := osPathJoin args.output (args.metric ++ "_report.tsv")
              let res := runLoop oracle args.metric skip_qs use_qs inputLines
              .ran output_fp (headerLine args.metric ++ res.1) res.2

/-- Spec-side table: the name of the routine a metric is computed by,
read off the arms of the source's `match` statement.  It depends only on
the metric (`ANSWER_SIMILARITY` has no routine; the spec-named mapping is
settled by the C2 and C5 theorems). -/
def metricRoutine : Metrics → String
  | .FAITHFULNESS => "compute_faithfulness"
  | .ANSWER_RELEVANCE => "compute_answer_relevance"
  | .CONTEXT_PRECISION => "compute_context_precision"
  | .CONTEXT_UTILIZATION => "compute_context_precision"
  | .CONTEXT_RELEVANCE => "compute_context_relevance"
  | .CONTEXT_RECALL => "compute_context_recall"
  | .ANSWER_SIMILARITY => ""
  | .ANSWER_CORRECTNESS => "compute_answer_correctness"

/-- Spec-side form of the report body: one row per processed record, in
order. -/
def reportBody : List (String × Rat) → String
  | [] => ""
  | p :: ps => rowLine p.1 p.2 ++ reportBody ps

/-- Spec-side recursion: the (id, value) pairs of the records the loop
processes to completion, in input order, stopping at the first record
whose processing raises. -/
def processedRows (oracle : Oracle) (metric : String) (skip_qs use_qs : List Int) :
    List RawRecord → List (String × Rat)
  | [] => []
  | r :: rs =>
      match processLine oracle metric skip_qs use_qs r with
      | .error _ => []
      | .ok .skipped => processedRows oracle metric skip_qs use_qs rs
      | .ok (.row i v) => (i, v) :: processedRows oracle metric skip_qs use_qs rs

/-- Spec-side per-line view: the report row a single record contributes,
`none` when it is skipped or raises. -/
def lineRow (oracle : Oracle) (metric : String) (skip_qs use_qs : List Int)
    (r : RawRecord) : Option (String × Rat) :=
  match processLine oracle metric skip_qs use_qs r with
  | .ok (.row i v) => some (i, v)
  | _ => none

/-- Every compute call a whole run makes, in order: empty when argparse
rejects the command line or the qs-list conversion raises. -/
def runnerCalls (oracle : Oracle) (a : RawArgs) (inputLines : List RawRecord) :
    List ComputeCall :=
  match parse_args a with
  | .error _ => []
  | .ok args =>
      match parseQs args.qs_to_skip, parseQs args.qs_to_use with
      | .ok skip_qs, .ok use_qs => runCalls oracle args.metric skip_qs use_qs inputLines
      | _, _ => []

/-- A string of the shape `<intPart>.<ddd>`: exactly three decimal digits
after the point. -/
def threeDecimalPlaces (s : String) : Prop :=
  ∃ intPart fracPart : String,
    s = intPart ++ "." ++ fracPart ∧ fracPart.length = 3 ∧ ∀ c ∈ fracPart.data, c.isDigit

/-- A well-formed context element for concrete test inputs. -/
def sampleCtx : RawCtx := ⟨some "chunk"⟩

/-- A well-formed input record with the given id, for concrete test
inputs. -/
def sampleRec (i : String) : RawRecord :=
  ⟨some i, some ("q" ++ i), some "ans", some "ideal", some [sampleCtx]⟩

/-- An oracle on which every routine returns one half. -/
def halfOracle : Oracle := fun _ => .ok (mkRat 1 2)

/-- An oracle on which the faithfulness routine raises for question "q1"
and every other call returns one half. -/
def failQ1Oracle : Oracle := fun c =>
  match c with
  | .compute_faithfulness q _ _ _ =>
      if q = "q1" then .error (.computeError "boom") else .ok (mkRat 1 2)
  | _ => .ok (mkRat 1 2)

/-! Shared lemmas about the embedding. -/

lemma runLoop_fst (oracle : Oracle) (metric : String) (skip_qs use_qs : List Int) :
    ∀ lines : List RawRecord,
      (runLoop oracle metric skip_qs use_qs lines).1
        = reportBody (processedRows oracle metric skip_qs use_qs lines)
  | [] => rfl
  | r :: rs => by
      cases h : processLine oracle metric skip_qs use_qs r with
      | error e => simp [runLoop, processedRows, h, reportBody]
      | ok res =>
          cases res with
          | skipped =>
              simp [runLoop, processedRows, h,
                runLoop_fst oracle metric skip_qs use_qs rs]
          | row i v =>
              simp [runLoop, processedRows, h, reportBody,
                runLoop_fst oracle metric skip_qs use_qs rs]

lemma runLoop_append_err (oracle : Oracle) (metric : String)
    (skip_qs use_qs : List Int) (r : RawRecord) (e : PyError) (post : List RawRecord)
    (hr : processLine oracle metric skip_qs use_qs r = .error e) :
    ∀ pre : List RawRecord,
      (∀ x ∈ pre, ∃ res, processLine oracle metric skip_qs use_qs x = .ok res) →
      runLoop oracle metric skip_qs use_qs (pre ++ r :: post)
        = (reportBody (processedRows oracle metric skip_qs use_qs pre), some e)
  | [], _ => by simp [runLoop, processedRows, hr, reportBody]
  | p :: ps, hpre => by
      obtain ⟨res, hres⟩ := hpre p (by simp)
      have ih := runLoop_append_err oracle metric skip_qs use_qs r e post hr ps
        (fun x hx => hpre x (by simp [hx]))
      cases res with
      | skipped => simp [runLoop, processedRows, hres, ih]
      | row i v => simp [runLoop, processedRows, hres, reportBody, ih]

lemma processedRows_eq_filterMap (oracle : Oracle) (metric : String)
    (skip_qs use_qs : List Int) :
    ∀ lines : List RawRecord,
      (runLoop oracle metric skip_qs use_qs lines).2 = none →
      processedRows oracle metric skip_qs use_qs lines
        = lines.filterMap (lineRow oracle metric skip_qs use_qs)
  | [], _ => rfl
  | r :: rs, h => by
      cases hr : processLine oracle metric skip_qs use_qs r with
      | error e => simp [runLoop, hr] at h
      | ok res =>
          cases res with
          | skipped =>
              have h' : (runLoop oracle metric skip_qs use_qs rs).2 = none := by
                simpa [runLoop, hr] using h
              simp [processedRows, hr, List.filterMap, lineRow,
                processedRows_eq_filterMap oracle metric skip_qs use_qs rs h']
          | row i v =>
              have h' : (runLoop oracle metric skip_qs use_qs rs).2 = none := by
                simpa [runLoop, hr] using h
              simp [processedRows, hr, List.filterMap, lineRow,
                processedRows_eq_filterMap oracle metric skip_qs use_qs rs h']

lemma processedRows_all_skipped (oracle : Oracle) (metric : String)
    (skip_qs use_qs : List Int) :
    ∀ pre : List RawRecord,
      (∀ x ∈ pre, processLine oracle metric skip_qs use_qs x = .ok .skipped) →
      processedRows oracle metric skip_qs use_qs pre = []
  | [], _ => rfl
  | p :: ps, h => by
      have hp := h p (by simp)
      simp [processedRows, hp,
        processedRows_all_skipped oracle metric skip_qs use_qs ps
          (fun x hx => h x (by simp [hx]))]

lemma matchDispatch_ne_unsupported (m : Metrics) (q a ia : String)
    (ctx : List String) (p : List (String × String)) (s : String) :
    matchDispatch m q a ia ctx p ≠ .unsupported s := by
  cases m <;> simp [matchDispatch]

lemma ofValue_value (m : Metrics) : Metrics.ofValue m.value = some m := by
  cases m <;> decide

lemma mem_insertSorted (s a : String) (l : List String) :
    a ∈ insertSorted s l ↔ a = s ∨ a ∈ l := by
  induction l with
  | nil => simp [insertSorted]
  | cons t ts ih =>
      by_cases h : strLe s t = true <;> simp [insertSorted, h, ih] <;> tauto

lemma mem_sortStrings (a : String) (l : List String) :
    a ∈ sortStrings l ↔ a ∈ l := by
  induction l with
  | nil => simp [sortStrings]
  | cons s ss ih => simp [sortStrings, mem_insertSorted, ih]

lemma mem_members (m : Metrics) : m ∈ Metrics.members := by
  cases m <;> simp [Metrics.members]

lemma mem_choices_iff (s : String) :
    s ∈ choices ↔ ∃ m : Metrics, m.value = s := by
  simp only [choices, mem_sortStrings, List.mem_map]
  constructor
  · rintro ⟨m, _, h⟩; exact ⟨m, h⟩
  · rintro ⟨m, h⟩; exact ⟨m, mem_members m, h⟩

lemma ofValue_of_mem_choices (s : String) (h : s ∈ choices) :
    ∃ m : Metrics, Metrics.ofValue s = some m := by
  obtain ⟨m, hm⟩ := (mem_choices_iff s).1 h
  subst hm
  exact ⟨m, ofValue_value m⟩

lemma lineDispatch_skip (metric : String) (skip_qs use_qs : List Int)
    (r : RawRecord) (i : String) (n : Int)
    (hid : r.id = some i) (hn : pyInt i = .ok n) (hc : n ∈ skip_qs ∧ n ∉ use_qs) :
    lineDispatch metric skip_qs use_qs r = .ok none := by
  simp [lineDispatch, hid, getField, hn, hc.1, hc.2,
    Bind.bind, Except.bind, pure, Except.pure]

lemma lineDispatch_some_inv (metric : String) (skip_qs use_qs : List Int)
    (r : RawRecord) (i : String) (res : MatchResult)
    (h : lineDispatch metric skip_qs use_qs r = .ok (some (i, res))) :
    ∃ m q a ia ctx, Metrics.ofValue metric = some m
      ∧ res = matchDispatch m q a ia ctx [] := by
  rcases r with ⟨rid, rq, rpa, ria, rctx⟩
  cases rid with
  | none => simp [lineDispatch, getField, Bind.bind, Except.bind] at h
  | some id0 =>
  cases hn : pyInt id0 with
  | error e => simp [lineDispatch, getField, hn, Bind.bind, Except.bind] at h
  | ok n =>
  by_cases hc : n ∈ skip_qs ∧ n ∉ use_qs
  · simp [lineDispatch, getField, hn, hc.1, hc.2,
      Bind.bind, Except.bind, pure, Except.pure] at h
  · cases rq with
    | none => simp [lineDispatch, getField, hn, hc, Bind.bind, Except.bind] at h
    | some q =>
    cases rctx with
    | none => simp [lineDispatch, getField, hn, hc, Bind.bind, Except.bind] at h
    | some ctxs =>
    cases hm : getChunks ctxs with
    | error e =>
        simp [lineDispatch, getField, hn, hc, hm, Bind.bind, Except.bind] at h
    | ok context =>
    cases rpa with
    | none => simp [lineDispatch, getField, hn, hc, hm, Bind.bind, Except.bind] at h
    | some pa =>
    cases ria with
    | none => simp [lineDispatch, getField, hn, hc, hm, Bind.bind, Except.bind] at h
    | some ia0 =>
    cases hov : Metrics.ofValue metric with
    | none =>
        simp [lineDispatch, getField, hn, hc, hm, matchOnMetricString, hov,
          Bind.bind, Except.bind] at h
    | some m =>
        refine ⟨m, q, pa, ia0, context, rfl, ?_⟩
        simp [lineDispatch, getField, hn, hc, hm, matchOnMetricString, hov,
          Bind.bind, Except.bind, pure, Except.pure] at h
        exact h.2.symm

lemma lineDispatch_none_inv (metric : String) (skip_qs use_qs : List Int)
    (r : RawRecord) (i : String) (n : Int)
    (hid : r.id = some i) (hn : pyInt i = .ok n)
    (h : lineDispatch metric skip_qs use_qs r = .ok none) :
    n ∈ skip_qs ∧ n ∉ use_qs := by
  by_contra hc
  rcases r with ⟨rid, rq, rpa, ria, rctx⟩
  have hid' : rid = some i := hid
  subst hid'
  cases rq with
  | none => simp [lineDispatch, getField, hn, hc, Bind.bind, Except.bind] at h
  | some q =>
  cases rctx with
  | none => simp [lineDispatch, getField, hn, hc, Bind.bind, Except.bind] at h
  | some ctxs =>
  cases hm : getChunks ctxs with
  | error e =>
      simp [lineDispatch, getField, hn, hc, hm, Bind.bind, Except.bind] at h
  | ok context =>
  cases rpa with
  | none => simp [lineDispatch, getField, hn, hc, hm, Bind.bind, Except.bind] at h
  | some pa =>
  cases ria with
  | none => simp [lineDispatch, getField, hn, hc, hm, Bind.bind, Except.bind] at h
  | some ia0 =>
  cases hov : Metrics.ofValue metric with
  | none =>
      simp [lineDispatch, getField, hn, hc, hm, matchOnMetricString, hov,
        Bind.bind, Except.bind] at h
  | some m =>
      simp [lineDispatch, getField, hn, hc, hm, matchOnMetricString, hov,
        Bind.bind, Except.bind, pure, Except.pure] at h

lemma digitChar_isDigit (n : Nat) (h : n < 10) : (digitChar n).isDigit := by
  interval_cases n <;> decide

lemma pad3_length (n : Nat) : (pad3 n).length = 3 := rfl

lemma pad3_digits (n : Nat) : ∀ c ∈ (pad3 n).data, c.isDigit := by
  intro c hc
  have h : c = digitChar (n / 100 % 10) ∨ c = digitChar (n / 10 % 10)
      ∨ c = digitChar (n % 10) := by
    simpa [pad3] using hc
  have h10 : (0 : Nat) < 10 := by norm_num
  rcases h with h | h | h <;>
    (subst h; exact digitChar_isDigit _ (Nat.mod_lt _ h10))

lemma format3_threeDecimalPlaces (x : Rat) : threeDecimalPlaces (format3 x) :=
  ⟨(if scaled3 x < 0 then "-" else "") ++ toString ((scaled3 x).natAbs / 1000),
    pad3 ((scaled3 x).natAbs % 1000), rfl, pad3_length _, pad3_digits _⟩

lemma getChunks_missing :
    ∀ ctxs : List RawCtx, (∃ c ∈ ctxs, c.chunk_text = none) →
      getChunks ctxs = .error (.keyError "chunk_text")
  | c :: cs, h => by
      cases hc : c.chunk_text with
      | none => simp [getChunks, getField, hc, Bind.bind, Except.bind]
      | some t =>
          obtain ⟨d, hd, hdn⟩ := h
          rcases List.mem_cons.mp hd with rfl | hd
          · rw [hc] at hdn; cases hdn
          · have ih := getChunks_missing cs ⟨d, hd, hdn⟩
            simp [getChunks, getField, hc, ih, Bind.bind, Except.bind]
  | [], h => by simp at h

lemma getChunks_ok :
    ∀ ctxs : List RawCtx, (∀ c ∈ ctxs, c.chunk_text ≠ none) →
      ∃ ts, getChunks ctxs = .ok ts
  | [], _ => ⟨[], rfl⟩
  | c :: cs, h => by
      cases hc : c.chunk_text with
      | none => exact absurd hc (h c (by simp))
      | some t =>
          obtain ⟨ts, hts⟩ := getChunks_ok cs (fun d hd => h d (by simp [hd]))
          exact ⟨t :: ts, by
            simp [getChunks, getField, hc, hts, Bind.bind, Except.bind, pure, Except.pure]⟩

lemma processLine_of_dispatch_error (oracle : Oracle) (metric : String)
    (skip_qs use_qs : List Int) (r : RawRecord) (e : PyError)
    (h : lineDispatch metric skip_qs use_qs r = .error e) :
    processLine oracle metric skip_qs use_qs r = .error e := by
  simp [processLine, h, Bind.bind, Except.bind]

lemma processLine_skipped_inv (oracle : Oracle) (metric : String)
    (skip_qs use_qs : List Int) (r : RawRecord)
    (h : processLine oracle metric skip_qs use_qs r = .ok .skipped) :
    lineDispatch metric skip_qs use_qs r = .ok none := by
  cases hld : lineDispatch metric skip_qs use_qs r with
  | error e => simp [processLine, hld, Bind.bind, Except.bind] at h
  | ok o =>
    cases o with
    | none => rfl
    | some pr =>
      rcases pr with ⟨i, res⟩
      cases res with
      | call c =>
          cases ho : oracle c with
          | error e => simp [processLine, hld, ho, Bind.bind, Except.bind] at h
          | ok v =>
              simp [processLine, hld, ho, Bind.bind, Except.bind,
                pure, Except.pure] at h
      | raiseNotImplemented msg =>
          simp [processLine, hld, Bind.bind, Except.bind] at h
      | unsupported s => simp [processLine, hld, Bind.bind, Except.bind] at h

lemma lineDispatch_err_id (metric : String) (skip_qs use_qs : List Int)
    (r : RawRecord) (h : r.id = none) :
    lineDispatch metric skip_qs use_qs r = .error (.keyError "id") := by
  simp [lineDispatch, getField, h, Bind.bind, Except.bind]

lemma lineDispatch_err_query (metric : String) (skip_qs use_qs : List Int)
    (r : RawRecord) (i : String) (n : Int)
    (hid : r.id = some i) (hn : pyInt i = .ok n) (hc : ¬(n ∈ skip_qs ∧ n ∉ use_qs))
    (hq : r.query = none) :
    lineDispatch metric skip_qs use_qs r = .error (.keyError "query") := by
  simp [lineDispatch, getField, hid, hn, hc, hq, Bind.bind, Except.bind]

lemma lineDispatch_err_context (metric : String) (skip_qs use_qs : List Int)
    (r : RawRecord) (i q : String) (n : Int)
    (hid : r.id = some i) (hn : pyInt i = .ok n) (hc : ¬(n ∈ skip_qs ∧ n ∉ use_qs))
    (hq : r.query = some q) (hctx : r.context = none) :
    lineDispatch metric skip_qs use_qs r = .error (.keyError "context") := by
  simp [lineDispatch, getField, hid, hn, hc, hq, hctx, Bind.bind, Except.bind]

lemma lineDispatch_err_chunk (metric : String) (skip_qs use_qs : List Int)
    (r : RawRecord) (i q : String) (n : Int) (ctxs : List RawCtx)
    (hid : r.id = some i) (hn : pyInt i = .ok n) (hc : ¬(n ∈ skip_qs ∧ n ∉ use_qs))
    (hq : r.query = some q) (hctx : r.context = some ctxs)
    (hmiss : ∃ c ∈ ctxs, c.chunk_text = none) :
    lineDispatch metric skip_qs use_qs r = .error (.keyError "chunk_text") := by
  simp [lineDispatch, getField, hid, hn, hc, hq, hctx,
    getChunks_missing ctxs hmiss, Bind.bind, Except.bind]

lemma lineDispatch_err_predicted (metric : String) (skip_qs use_qs : List Int)
    (r : RawRecord) (i q : String) (n : Int) (ctxs : List RawCtx)
    (hid : r.id = some i) (hn : pyInt i = .ok n) (hc : ¬(n ∈ skip_qs ∧ n ∉ use_qs))
    (hq : r.query = some q) (hctx : r.context = some ctxs)
    (hall : ∀ c ∈ ctxs, c.chunk_text ≠ none) (hpa : r.predicted_answer = none) :
    lineDispatch metric skip_qs use_qs r = .error (.keyError "predicted_answer") := by
  obtain ⟨ts, hts⟩ := getChunks_ok ctxs hall
  simp [lineDispatch, getField, hid, hn, hc, hq, hctx, hts, hpa,
    Bind.bind, Except.bind]

lemma lineDispatch_err_ideal (metric : String) (skip_qs use_qs : List Int)
    (r : RawRecord) (i q pa : String) (n : Int) (ctxs : List RawCtx)
    (hid : r.id = some i) (hn : pyInt i = .ok n) (hc : ¬(n ∈ skip_qs ∧ n ∉ use_qs))
    (hq : r.query = some q) (hctx : r.context = some ctxs)
    (hall : ∀ c ∈ ctxs, c.chunk_text ≠ none)
    (hpa : r.predicted_answer = some pa) (hia : r.ideal_answer = none) :
    lineDispatch metric skip_qs use_qs r = .error (.keyError "ideal_answer") := by
  obtain ⟨ts, hts⟩ := getChunks_ok ctxs hall
  simp [lineDispatch, getField, hid, hn, hc, hq, hctx, hts, hpa, hia,
    Bind.bind, Except.bind]

lemma parse_args_ok_inv (a : RawArgs) (args : Args) (h : parse_args a = .ok args) :
    a.metric = some args.metric ∧ args.metric ∈ choices
      ∧ a.input = some args.input ∧ a.output = some args.output
      ∧ args.cross_encoder = !a.cross_encoder_flag
      ∧ args.qs_to_skip = a.qs_to_skip ∧ args.qs_to_use = a.qs_to_use := by
  cases ham : a.metric with
  | none => simp [parse_args, ham] at h
  | some m =>
    by_cases hmc : m ∈ choices
    · cases hai : a.input with
      | none => simp [parse_args, ham, hmc, hai] at h
      | some i =>
        cases hao : a.output with
        | none => simp [parse_args, ham, hmc, hai, hao] at h
        | some o =>
            simp only [parse_args, ham, hmc, hai, hao, if_true, Except.ok.injEq] at h
            subst h
            exact ⟨rfl, hmc, rfl, rfl, rfl, rfl, rfl⟩
    · simp [parse_args, ham, hmc] at h

/-! Claim theorems. -/

/-- Claim C5: each of the six metrics the spec names — faithfulness, answer
relevance, context precision, context recall, context relevance, answer
correctness — is a selectable value of the `--metric` argument, `Metrics(...)`
maps its value to the correspondingly named enumeration member, and the arm
of the `match` for that member calls the correspondingly named compute
routine with the arguments the source passes. -/
theorem C5_spec_metrics_selectable_and_dispatched :
    ("faithfulness" ∈ choices
      ∧ "answer_relevance" ∈ choices
      ∧ "context_precision" ∈ choices
      ∧ "context_recall" ∈ choices
      ∧ "context_relevance" ∈ choices
      ∧ "answer_correctness" ∈ choices)
    ∧ (Metrics.ofValue "faithfulness" = some .FAITHFULNESS
      ∧ Metrics.ofValue "answer_relevance" = some .ANSWER_RELEVANCE
      ∧ Metrics.ofValue "context_precision" = some .CONTEXT_PRECISION
      ∧ Metrics.ofValue "context_recall" = some .CONTEXT_RECALL
      ∧ Metrics.ofValue "context_relevance" = some .CONTEXT_RELEVANCE
      ∧ Metrics.ofValue "answer_correctness" = some .ANSWER_CORRECTNESS)
    ∧ ∀ (q a ia : String) (ctx : List String) (p : List (String × String)),
        matchDispatch .FAITHFULNESS q a ia ctx p
          = .call (.compute_faithfulness q a ctx p)
        ∧ matchDispatch .ANSWER_RELEVANCE q a ia ctx p
          = .call (.compute_answer_relevance q ctx a p)
        ∧ matchDispatch .CONTEXT_PRECISION q a ia ctx p
          = .call (.compute_context_precision q ia ctx p)
        ∧ matchDispatch .CONTEXT_RECALL q a ia ctx p
          = .call (.compute_context_recall ctx a p)
        ∧ matchDispatch .CONTEXT_RELEVANCE q a ia ctx p
          = .call (.compute_context_relevance q ctx p)
        ∧ matchDispatch .ANSWER_CORRECTNESS q a ia ctx p
          = .call (.compute_answer_correctness ia a p) :=
  ⟨by decide, by decide, fun q a ia ctx p => ⟨rfl, rfl, rfl, rfl, rfl, rfl⟩⟩

/-- Claim C6: argument parsing rejects the command line — before any input
is touched — whenever one of the three required arguments is missing or the
`--metric` value is not a value of the `Metrics` enumeration; and for every
command line that passes parsing, `Metrics(metric)` succeeds and the
selected arm of the `match` is never the wildcard "Unsupported metric"
arm. -/
theorem C6_argparse_rejects_and_wildcard_unreachable :
    (∀ (a : RawArgs) (oracle : Oracle) (lines : List RawRecord),
      (a.metric = none ∨ a.input = none ∨ a.output = none
        ∨ ∀ s, a.metric = some s → s ∉ choices) →
      ∃ msg, parse_args a = .error msg ∧ runner oracle a lines = .usageError msg)
    ∧ (∀ (a : RawArgs) (args : Args), parse_args a = .ok args →
        ∃ m, Metrics.ofValue args.metric = some m
          ∧ ∀ (q ans ia : String) (ctx : List String)
              (p : List (String × String)) (s : String),
              matchOnMetricString args.metric q ans ia ctx p
                = .ok (matchDispatch m q ans ia ctx p)
              ∧ matchDispatch m q ans ia ctx p ≠ .unsupported s) := by
  constructor
  · intro a oracle lines h
    rcases h with h | h | h | h
    · exact ⟨"the following arguments are required: --metric",
        by simp [parse_args, h], by simp [runner, parse_args, h]⟩
    · cases ham : a.metric with
      | none =>
          exact ⟨"the following arguments are required: --metric",
            by simp [parse_args, ham], by simp [runner, parse_args, ham]⟩
      | some m =>
          by_cases hmc : m ∈ choices
          · exact ⟨"the following arguments are required: --input",
              by simp [parse_args, ham, hmc, h], by simp [runner, parse_args, ham, hmc, h]⟩
          · exact ⟨"argument --metric: invalid choice: " ++ m,
              by simp [parse_args, ham, hmc], by simp [runner, parse_args, ham, hmc]⟩
    · cases ham : a.metric with
      | none =>
          exact ⟨"the following arguments are required: --metric",
            by simp [parse_args, ham], by simp [runner, parse_args, ham]⟩
      | some m =>
          by_cases hmc : m ∈ choices
          · cases hai : a.input with
            | none =>
                exact ⟨"the following arguments are required: --input",
                  by simp [parse_args, ham, hmc, hai],
                  by simp [runner, parse_args, ham, hmc, hai]⟩
            | some i =>
                exact ⟨"the following arguments are required: --output",
                  by simp [parse_args, ham, hmc, hai, h],
                  by simp [runner, parse_args, ham, hmc, hai, h]⟩
          · exact ⟨"argument --metric: invalid choice: " ++ m,
              by simp [parse_args, ham, hmc], by simp [runner, parse_args, ham, hmc]⟩
    · cases ham : a.metric with
      | none =>
          exact ⟨"the following arguments are required: --metric",
            by simp [parse_args, ham], by simp [runner, parse_args, ham]⟩
      | some m =>
          have hmc := h m ham
          exact ⟨"argument --metric: invalid choice: " ++ m,
            by simp [parse_args, ham, hmc], by simp [runner, parse_args, ham, hmc]⟩
  · intro a args hp
    obtain ⟨-, hmem, -⟩ := parse_args_ok_inv a args hp
    obtain ⟨m, hm⟩ := ofValue_of_mem_choices _ hmem
    exact ⟨m, hm, fun q ans ia ctx p s =>
      ⟨by simp [matchOnMetricString, hm],
       matchDispatch_ne_unsupported m q ans ia ctx p s⟩⟩

/-- Witness for C6 at a concrete command line missing `--metric` and at one
whose `--metric` value is not a member value. -/
theorem C6_argparse_rejects_witness :
    (∃ msg, parse_args ⟨none, some "in.jsonl", some "out", false, none, none, none, false⟩
        = .error msg
      ∧ runner halfOracle
          ⟨none, some "in.jsonl", some "out", false, none, none, none, false⟩ []
          = .usageError msg)
    ∧ ∃ m, Metrics.ofValue
        (Args.metric ⟨"faithfulness", "in.jsonl", "out", true, none, none, none, false⟩)
          = some m
      ∧ ∀ (q ans ia : String) (ctx : List String)
          (p : List (String × String)) (s : String),
          matchOnMetricString
            (Args.metric ⟨"faithfulness", "in.jsonl", "out", true, none, none, none, false⟩)
            q ans ia ctx p
            = .ok (matchDispatch m q ans ia ctx p)
          ∧ matchDispatch m q ans ia ctx p ≠ .unsupported s :=
  ⟨C6_argparse_rejects_and_wildcard_unreachable.1
      ⟨none, some "in.jsonl", some "out", false, none, none, none, false⟩
      halfOracle [] (Or.inl rfl),
   C6_argparse_rejects_and_wildcard_unreachable.2
      ⟨some "faithfulness", some "in.jsonl", some "out", false, none, none, none, false⟩
      ⟨"faithfulness", "in.jsonl", "out", true, none, none, none, false⟩ (by decide)⟩

/-- Claim C8: the `--cross-encoder` flag is parsed but never read again:
two runs identical except for that flag produce the same outcome (same
report path, same report contents, same termination) and make the same
compute calls with the same arguments. -/
theorem C8_cross_encoder_flag_immaterial (oracle : Oracle) (a : RawArgs)
    (b1 b2 : Bool) (lines : List RawRecord) :
    runner oracle { a with cross_encoder_flag := b1 } lines
      = runner oracle { a with cross_encoder_flag := b2 } lines
    ∧ runnerCalls oracle { a with cross_encoder_flag := b1 } lines
      = runnerCalls oracle { a with cross_encoder_flag := b2 } lines := by
  rcases a with ⟨am, ai, ao, ac, amt, aqs, aqu, ad⟩
  cases am with
  | none => simp [runner, runnerCalls, parse_args]
  | some m =>
    by_cases hmc : m ∈ choices
    · cases ai with
      | none => simp [runner, runnerCalls, parse_args, hmc]
      | some i =>
        cases ao with
        | none => simp [runner, runnerCalls, parse_args, hmc]
        | some o => simp [runner, runnerCalls, parse_args, hmc]
    · simp [runner, runnerCalls, parse_args, hmc]

/-- Claim C9: a record whose id converts to the integer n is skipped exactly
when n is in the skip list and not in the use list; an absent `--qs_to_skip`
yields the empty skip list, under which no record is ever skipped, whatever
`--qs_to_use` holds. -/
theorem C9_skip_iff_in_skip_and_not_in_use (oracle : Oracle) (metric : String)
    (skip_qs use_qs : List Int) (r : RawRecord) (i : String) (n : Int)
    (hid : r.id = some i) (hn : pyInt i = .ok n) :
    (processLine oracle metric skip_qs use_qs r = .ok .skipped
      ↔ n ∈ skip_qs ∧ n ∉ use_qs)
    ∧ parseQs none = .ok []
    ∧ (skip_qs = [] →
        processLine oracle metric skip_qs use_qs r ≠ .ok .skipped) := by
  have hiff : processLine oracle metric skip_qs use_qs r = .ok .skipped
      ↔ n ∈ skip_qs ∧ n ∉ use_qs := by
    constructor
    · intro h
      exact lineDispatch_none_inv metric skip_qs use_qs r i n hid hn
        (processLine_skipped_inv oracle metric skip_qs use_qs r h)
    · intro hc
      simp [processLine, lineDispatch_skip metric skip_qs use_qs r i n hid hn hc,
        Bind.bind, Except.bind, pure, Except.pure]
  refine ⟨hiff, rfl, ?_⟩
  rintro rfl h
  exact absurd (hiff.1 h).1 (List.not_mem_nil n)

/-- Witness for C9 at a concrete record with id 3, skip list [3] and an
empty use list. -/
theorem C9_skip_iff_witness :
    (processLine halfOracle "faithfulness" [3] [] (sampleRec "3") = .ok .skipped
      ↔ (3 : Int) ∈ [(3 : Int)] ∧ (3 : Int) ∉ ([] : List Int))
    ∧ parseQs none = .ok []
    ∧ ([(3 : Int)] = ([] : List Int) →
        processLine halfOracle "faithfulness" [3] [] (sampleRec "3") ≠ .ok .skipped) :=
  C9_skip_iff_in_skip_and_not_in_use halfOracle "faithfulness" [3] []
    (sampleRec "3") "3" 3 (by decide) (by decide)

/-- Claim C3: every run that reaches the processing loop creates its report
at `{output}/{metric}_report.tsv`, whose contents are the header line
`#QID<TAB>{metric uppercased}` followed by, for each record processed to
completion, in order, one line of the record's id, a tab, and the metric
value formatted with exactly three decimal places. -/
theorem C3_report_path_header_rows (oracle : Oracle) (a : RawArgs)
    (lines : List RawRecord) (path content : String) (err : Option PyError)
    (h : runner oracle a lines = .ran path content err) :
    ∃ args skip_qs use_qs,
      parse_args a = .ok args
      ∧ parseQs args.qs_to_skip = .ok skip_qs
      ∧ parseQs args.qs_to_use = .ok use_qs
      ∧ path = osPathJoin args.output (args.metric ++ "_report.tsv")
      ∧ content = headerLine args.metric
          ++ reportBody (processedRows oracle args.metric skip_qs use_qs lines)
      ∧ headerLine args.metric = "#QID" ++ "\t" ++ pyUpper args.metric ++ "\n"
      ∧ (∀ (i : String) (v : Rat), rowLine i v = i ++ "\t" ++ format3 v ++ "\n")
      ∧ ∀ v : Rat, threeDecimalPlaces (format3 v) := by
  cases hp : parse_args a with
  | error msg => simp [runner, hp] at h
  | ok args =>
    cases hs : parseQs args.qs_to_skip with
    | error e => simp [runner, hp, hs] at h
    | ok skip_qs =>
      cases hu : parseQs args.qs_to_use with
      | error e => simp [runner, hp, hs, hu] at h
      | ok use_qs =>
          simp only [runner, hp, hs, hu, RunOutcome.ran.injEq] at h
          obtain ⟨hpath, hcontent, -⟩ := h
          refine ⟨args, skip_qs, use_qs, rfl, hs, hu, hpath.symm, ?_, rfl,
            fun i v => rfl, fun v => format3_threeDecimalPlaces v⟩
          rw [← hcontent, runLoop_fst]

/-- Witness for C3 at a concrete one-record run. -/
theorem C3_report_path_header_rows_witness :
    ∃ args skip_qs use_qs,
      parse_args ⟨some "faithfulness", some "in.jsonl", some "out",
          false, none, none, none, false⟩ = .ok args
      ∧ parseQs args.qs_to_skip = .ok skip_qs
      ∧ parseQs args.qs_to_use = .ok use_qs
      ∧ "out/faithfulness_report.tsv"
          = osPathJoin args.output (args.metric ++ "_report.tsv")
      ∧ "#QID\tFAITHFULNESS\n1\t0.500\n" = headerLine args.metric
          ++ reportBody (processedRows halfOracle args.metric skip_qs use_qs
              [sampleRec "1"])
      ∧ headerLine args.metric = "#QID" ++ "\t" ++ pyUpper args.metric ++ "\n"
      ∧ (∀ (i : String) (v : Rat), rowLine i v = i ++ "\t" ++ format3 v ++ "\n")
      ∧ ∀ v : Rat, threeDecimalPlaces (format3 v) :=
  C3_report_path_header_rows halfOracle
    ⟨some "faithfulness", some "in.jsonl", some "out", false, none, none, none, false⟩
    [sampleRec "1"] "out/faithfulness_report.tsv" "#QID\tFAITHFULNESS\n1\t0.500\n"
    none (by decide)

/-- Claim C4: the loop is a single pass in file order: when a run completes
without an exception, the report rows are exactly the per-record rows of the
input lines in their original relative order, each non-skipped line
contributing exactly one row and each skipped line none. -/
theorem C4_single_pass_in_order (oracle : Oracle) (a : RawArgs)
    (lines : List RawRecord) (path content : String)
    (h : runner oracle a lines = .ran path content none) :
    ∃ args skip_qs use_qs,
      parse_args a = .ok args
      ∧ parseQs args.qs_to_skip = .ok skip_qs
      ∧ parseQs args.qs_to_use = .ok use_qs
      ∧ processedRows oracle args.metric skip_qs use_qs lines
          = lines.filterMap (lineRow oracle args.metric skip_qs use_qs)
      ∧ content = headerLine args.metric
          ++ reportBody (lines.filterMap (lineRow oracle args.metric skip_qs use_qs)) := by
  cases hp : parse_args a with
  | error msg => simp [runner, hp] at h
  | ok args =>
    cases hs : parseQs args.qs_to_skip with
    | error e => simp [runner, hp, hs] at h
    | ok skip_qs =>
      cases hu : parseQs args.qs_to_use with
      | error e => simp [runner, hp, hs, hu] at h
      | ok use_qs =>
          simp only [runner, hp, hs, hu, RunOutcome.ran.injEq] at h
          obtain ⟨-, hcontent, herr⟩ := h
          have hfm := processedRows_eq_filterMap oracle args.metric skip_qs use_qs
            lines herr
          refine ⟨args, skip_qs, use_qs, rfl, hs, hu, hfm, ?_⟩
          rw [← hcontent, runLoop_fst, hfm]

/-- Witness for C4 at a concrete two-record run with one skipped record. -/
theorem C4_single_pass_in_order_witness :
    ∃ args skip_qs use_qs,
      parse_args ⟨some "context_recall", some "in.jsonl", some "out",
          false, none, some "1", none, false⟩ = .ok args
      ∧ parseQs args.qs_to_skip = .ok skip_qs
      ∧ parseQs args.qs_to_use = .ok use_qs
      ∧ processedRows halfOracle args.metric skip_qs use_qs
            [sampleRec "1", sampleRec "2"]
          = List.filterMap (lineRow halfOracle args.metric skip_qs use_qs)
              [sampleRec "1", sampleRec "2"]
      ∧ "#QID\tCONTEXT_RECALL\n2\t0.500\n" = headerLine args.metric
          ++ reportBody (List.filterMap (lineRow halfOracle args.metric skip_qs use_qs)
              [sampleRec "1", sampleRec "2"]) :=
  C4_single_pass_in_order halfOracle
    ⟨some "context_recall", some "in.jsonl", some "out", false, none, some "1", none, false⟩
    [sampleRec "1", sampleRec "2"] "out/context_recall_report.tsv"
    "#QID\tCONTEXT_RECALL\n2\t0.500\n" (by decide)

/-- Counterexample to claim C1 as stated: on a two-record input whose first
record's metric computation raises, the run ends with that exception and the
report holds the header only — the second record, which on its own would
produce a row, is never processed.  The loop body has no handler, so the
driver does not "print and continue" past a failed metric computation. -/
theorem C1_counterexample :
    runner failQ1Oracle
      ⟨some "faithfulness", some "data.jsonl", some "out", false, none, none, none, false⟩
      [sampleRec "1", sampleRec "2"]
      = .ran "out/faithfulness_report.tsv" "#QID\tFAITHFULNESS\n"
          (some (.computeError "boom"))
    ∧ runner failQ1Oracle
      ⟨some "faithfulness", some "data.jsonl", some "out", false, none, none, none, false⟩
      [sampleRec "2"]
      = .ran "out/faithfulness_report.tsv" "#QID\tFAITHFULNESS\n2\t0.500\n" none := by
  constructor <;> decide

/-- Claim C1 (amended): the driver has no per-record failure handling: an
exception raised by a metric computation propagates and aborts the run at
that record; the records after it are never processed, and the report
retains the header and exactly the rows of the records completed before
the failure. -/
theorem C1_metric_failure_aborts_run (oracle : Oracle) (a : RawArgs)
    (args : Args) (skip_qs use_qs : List Int)
    (pre post : List RawRecord) (r : RawRecord) (e : PyError)
    (hparse : parse_args a = .ok args)
    (hskip : parseQs args.qs_to_skip = .ok skip_qs)
    (huse : parseQs args.qs_to_use = .ok use_qs)
    (hpre : ∀ x ∈ pre, ∃ res, processLine oracle args.metric skip_qs use_qs x = .ok res)
    (hr : processLine oracle args.metric skip_qs use_qs r = .error e) :
    runner oracle a (pre ++ r :: post)
      = .ran (osPathJoin args.output (args.metric ++ "_report.tsv"))
          (headerLine args.metric
            ++ reportBody (processedRows oracle args.metric skip_qs use_qs pre))
          (some e) := by
  have hloop := runLoop_append_err oracle args.metric skip_qs use_qs r e post hr pre hpre
  simp [runner, hparse, hskip, huse, hloop]

/-- Witness for the amended C1: a concrete three-record run aborting at its
second record. -/
theorem C1_metric_failure_aborts_run_witness :
    runner failQ1Oracle
      ⟨some "faithfulness", some "data.jsonl", some "out", false, none, none, none, false⟩
      ([sampleRec "4"] ++ sampleRec "1" :: [sampleRec "2"])
      = .ran (osPathJoin "out" ("faithfulness" ++ "_report.tsv"))
          (headerLine "faithfulness"
            ++ reportBody (processedRows failQ1Oracle "faithfulness" [] [] [sampleRec "4"]))
          (some (.computeError "boom")) :=
  C1_metric_failure_aborts_run failQ1Oracle
    ⟨some "faithfulness", some "data.jsonl", some "out", false, none, none, none, false⟩
    ⟨"faithfulness", "data.jsonl", "out", true, none, none, none, false⟩
    [] [] [sampleRec "4"] [sampleRec "2"] (sampleRec "1") (.computeError "boom")
    (by decide) (by decide) (by decide)
    (by
      intro x hx
      have hx' : x = sampleRec "4" := by simpa using hx
      subst hx'
      exact ⟨.row "4" (mkRat 1 2), by decide⟩)
    (by decide)

/-- Counterexample to claim C2 as stated: with `--metric answer_similarity`
— a selectable value — a non-skipped record is dispatched to no
metric-computation routine at all: the arm raises `NotImplementedError`
and the loop body makes no compute call. -/
theorem C2_counterexample :
    processLine halfOracle "answer_similarity" [] [] (sampleRec "1")
      = .error (.notImplementedError "Use prompted version of answer similarity")
    ∧ callsOfLine "answer_similarity" [] [] (sampleRec "1") = [] := by
  constructor <;> decide

/-- Claim C2 (amended): for every metric other than `answer_similarity`
(whose arm raises instead of dispatching), the `match` sends each record to
exactly one compute routine, and which routine is determined solely by the
metric: the arm yields a single call whose routine is `metricRoutine m`,
and per record the loop body makes at most one call, always to that same
routine. -/
theorem C2_dispatch_sole_function_of_metric (m : Metrics)
    (hm : m ≠ .ANSWER_SIMILARITY) :
    (∀ (q a ia : String) (ctx : List String) (p : List (String × String)),
      ∃ c, matchDispatch m q a ia ctx p = .call c
        ∧ c.routineName = metricRoutine m)
    ∧ ∀ (skip_qs use_qs : List Int) (r : RawRecord),
        callsOfLine m.value skip_qs use_qs r = []
        ∨ ∃ c, callsOfLine m.value skip_qs use_qs r = [c]
            ∧ c.routineName = metricRoutine m := by
  have h1 : ∀ (q a ia : String) (ctx : List String) (p : List (String × String)),
      ∃ c, matchDispatch m q a ia ctx p = .call c
        ∧ c.routineName = metricRoutine m := by
    intro q a ia ctx p
    cases m with
    | ANSWER_SIMILARITY => exact absurd rfl hm
    | FAITHFULNESS => exact ⟨_, rfl, rfl⟩
    | ANSWER_RELEVANCE => exact ⟨_, rfl, rfl⟩
    | CONTEXT_PRECISION => exact ⟨_, rfl, rfl⟩
    | CONTEXT_UTILIZATION => exact ⟨_, rfl, rfl⟩
    | CONTEXT_RELEVANCE => exact ⟨_, rfl, rfl⟩
    | CONTEXT_RECALL => exact ⟨_, rfl, rfl⟩
    | ANSWER_CORRECTNESS => exact ⟨_, rfl, rfl⟩
  refine ⟨h1, ?_⟩
  intro skip_qs use_qs r
  cases hld : lineDispatch m.value skip_qs use_qs r with
  | error e => left; simp [callsOfLine, hld]
  | ok o =>
    cases o with
    | none => left; simp [callsOfLine, hld]
    | some pr =>
        rcases pr with ⟨i, res⟩
        obtain ⟨m', q, aa, ia, ctx, hov, hres⟩ :=
          lineDispatch_some_inv m.value skip_qs use_qs r i res hld
        rw [ofValue_value m] at hov
        obtain rfl : m = m' := by
          simpa using hov
        obtain ⟨c, hc, hcr⟩ := h1 q aa ia ctx []
        right
        refine ⟨c, ?_, hcr⟩
        rw [hres] at hld
        simp [callsOfLine, hld, hc]

/-- Witness for the amended C2 at the faithfulness metric and a concrete
record. -/
theorem C2_dispatch_sole_function_of_metric_witness :
    (∃ c, matchDispatch .FAITHFULNESS "q" "a" "ia" ["c"] []
        = .call c ∧ c.routineName = metricRoutine .FAITHFULNESS)
    ∧ (callsOfLine (Metrics.value .FAITHFULNESS) [] [] (sampleRec "1") = []
      ∨ ∃ c, callsOfLine (Metrics.value .FAITHFULNESS) [] [] (sampleRec "1") = [c]
          ∧ c.routineName = metricRoutine .FAITHFULNESS) :=
  ⟨(C2_dispatch_sole_function_of_metric .FAITHFULNESS (by decide)).1 "q" "a" "ia" ["c"] [],
   (C2_dispatch_sole_function_of_metric .FAITHFULNESS (by decide)).2 [] [] (sampleRec "1")⟩

/-- Counterexample to claim C7 as stated: a line lacking "query",
"predicted_answer", "ideal_answer" and "context" does not fail when its id
is in the skip list — the whole run completes without error, because the
skip check runs before those fields are read.  The fields are therefore not
required for every line. -/
theorem C7_counterexample :
    runner halfOracle
      ⟨some "faithfulness", some "data.jsonl", some "out", false, none, some "3", none, false⟩
      [⟨some "3", none, none, none, none⟩]
      = .ran "out/faithfulness_report.tsv" "#QID\tFAITHFULNESS\n" none := by
  decide

/-- Claim C7 (amended): each line is parsed as an independent JSON object;
the field "id" is required for every line (a line lacking it raises
`KeyError`), while "query", "context" (with "chunk_text" in each element),
"predicted_answer" and "ideal_answer" are read — and required — only for
non-skipped lines, in that order. -/
theorem C7_fields_required (oracle : Oracle) (metric : String)
    (skip_qs use_qs : List Int) (r : RawRecord) :
    (r.id = none →
      processLine oracle metric skip_qs use_qs r = .error (.keyError "id"))
    ∧ ∀ (i : String) (n : Int), r.id = some i → pyInt i = .ok n →
        ¬(n ∈ skip_qs ∧ n ∉ use_qs) →
        ((r.query = none →
            processLine oracle metric skip_qs use_qs r = .error (.keyError "query"))
        ∧ (∀ q, r.query = some q → r.context = none →
            processLine oracle metric skip_qs use_qs r = .error (.keyError "context"))
        ∧ (∀ q ctxs, r.query = some q → r.context = some ctxs →
            (∃ c ∈ ctxs, c.chunk_text = none) →
            processLine oracle metric skip_qs use_qs r = .error (.keyError "chunk_text"))
        ∧ (∀ q ctxs, r.query = some q → r.context = some ctxs →
            (∀ c ∈ ctxs, c.chunk_text ≠ none) → r.predicted_answer = none →
            processLine oracle metric skip_qs use_qs r
              = .error (.keyError "predicted_answer"))
        ∧ (∀ q pa ctxs, r.query = some q → r.context = some ctxs →
            (∀ c ∈ ctxs, c.chunk_text ≠ none) → r.predicted_answer = some pa →
            r.ideal_answer = none →
            processLine oracle metric skip_qs use_qs r
              = .error (.keyError "ideal_answer"))) := by
  refine ⟨?_, ?_⟩
  · intro h
    exact processLine_of_dispatch_error oracle metric skip_qs use_qs r _
      (lineDispatch_err_id metric skip_qs use_qs r h)
  · intro i n hid hn hc
    refine ⟨?_, ?_, ?_, ?_, ?_⟩
    · intro hq
      exact processLine_of_dispatch_error oracle metric skip_qs use_qs r _
        (lineDispatch_err_query metric skip_qs use_qs r i n hid hn hc hq)
    · intro q hq hctx
      exact processLine_of_dispatch_error oracle metric skip_qs use_qs r _
        (lineDispatch_err_context metric skip_qs use_qs r i q n hid hn hc hq hctx)
    · intro q ctxs hq hctx hmiss
      exact processLine_of_dispatch_error oracle metric skip_qs use_qs r _
        (lineDispatch_err_chunk metric skip_qs use_qs r i q n ctxs hid hn hc hq hctx hmiss)
    · intro q ctxs hq hctx hall hpa
      exact processLine_of_dispatch_error oracle metric skip_qs use_qs r _
        (lineDispatch_err_predicted metric skip_qs use_qs r i q n ctxs
          hid hn hc hq hctx hall hpa)
    · intro q pa ctxs hq hctx hall hpa hia
      exact processLine_of_dispatch_error oracle metric skip_qs use_qs r _
        (lineDispatch_err_ideal metric skip_qs use_qs r i q pa n ctxs
          hid hn hc hq hctx hall hpa hia)

/-- Witness for the amended C7: concrete lines lacking "id"
and lacking "query". -/
theorem C7_fields_required_witness :
    processLine halfOracle "faithfulness" [] [] ⟨none, none, none, none, none⟩
      = .error (.keyError "id")
    ∧ processLine halfOracle "faithfulness" [] [] ⟨some "7", none, none, none, none⟩
      = .error (.keyError "query") :=
  ⟨(C7_fields_required halfOracle "faithfulness" [] []
      ⟨none, none, none, none, none⟩).1 rfl,
   ((C7_fields_required halfOracle "faithfulness" [] []
      ⟨some "7", none, none, none, none⟩).2 "7" 7 rfl (by decide) (by decide)).1 rfl⟩

/-- Counterexample to claim C10 as stated: a non-empty input whose only
record is skipped never reaches the `ANSWER_SIMILARITY` arm — the run
completes without `NotImplementedError`.  The raise happens only when some
record survives the skip check (and its fields parse). -/
theorem C10_counterexample :
    runner halfOracle
      ⟨some "answer_similarity", some "data.jsonl", some "out",
        false, none, some "1", none, false⟩
      [sampleRec "1"]
      = .ran "out/answer_similarity_report.tsv" "#QID\tANSWER_SIMILARITY\n" none := by
  decide

/-- Claim C10 (amended): with `--metric answer_similarity`, the first record
that survives the skip check and whose fields parse raises
`NotImplementedError`; any earlier records were all skipped, so when the
exception ends the run the report file has already been created and holds
exactly the header line — no data row is ever written for this metric. -/
theorem C10_answer_similarity_header_only (oracle : Oracle) (a : RawArgs)
    (args : Args) (skip_qs use_qs : List Int) (pre post : List RawRecord)
    (r : RawRecord) (pr : String × MatchResult)
    (hparse : parse_args a = .ok args)
    (hmetric : args.metric = "answer_similarity")
    (hskip : parseQs args.qs_to_skip = .ok skip_qs)
    (huse : parseQs args.qs_to_use = .ok use_qs)
    (hpre : ∀ x ∈ pre, processLine oracle args.metric skip_qs use_qs x = .ok .skipped)
    (hr : lineDispatch args.metric skip_qs use_qs r = .ok (some pr)) :
    runner oracle a (pre ++ r :: post)
      = .ran (osPathJoin args.output ("answer_similarity" ++ "_report.tsv"))
          (headerLine "answer_similarity")
          (some (.notImplementedError "Use prompted version of answer similarity")) := by
  rw [hmetric] at hpre hr
  rcases pr with ⟨i, res⟩
  obtain ⟨m, q, aa, ia, ctx, hov, hres⟩ :=
    lineDispatch_some_inv "answer_similarity" skip_qs use_qs r i res hr
  have hova : Metrics.ofValue "answer_similarity" = some Metrics.ANSWER_SIMILARITY := by
    decide
  rw [hova] at hov
  obtain rfl : m = Metrics.ANSWER_SIMILARITY := by simpa using hov.symm
  subst hres
  have hproc : processLine oracle "answer_similarity" skip_qs use_qs r
      = .error (.notImplementedError "Use prompted version of answer similarity") := by
    simp [processLine, hr, matchDispatch, Bind.bind, Except.bind]
  have hloop := runLoop_append_err oracle "answer_similarity" skip_qs use_qs r _ post
    hproc pre (fun x hx => ⟨.skipped, hpre x hx⟩)
  rw [processedRows_all_skipped oracle "answer_similarity" skip_qs use_qs pre hpre]
    at hloop
  have hrb : reportBody [] = "" := rfl
  simp [runner, hparse, hskip, huse, hmetric, hloop, hrb]

/-- Witness for the amended C10: a concrete run with one skipped record
followed by a well-formed one. -/
theorem C10_answer_similarity_header_only_witness :
    runner halfOracle
      ⟨some "answer_similarity", some "data.jsonl", some "out",
        false, none, some "9", none, false⟩
      ([sampleRec "9"] ++ sampleRec "1" :: [])
      = .ran (osPathJoin "out" ("answer_similarity" ++ "_report.tsv"))
          (headerLine "answer_similarity")
          (some (.notImplementedError "Use prompted version of answer similarity")) :=
  C10_answer_similarity_header_only halfOracle
    ⟨some "answer_similarity", some "data.jsonl", some "out",
      false, none, some "9", none, false⟩
    ⟨"answer_similarity", "data.jsonl", "out", true, none, some "9", none, false⟩
    [9] [] [sampleRec "9"] [] (sampleRec "1")
    ("1", .raiseNotImplemented "Use prompted version of answer similarity")
    (by decide) rfl (by decide) (by decide)
    (by
      intro x hx
      have hx' : x = sampleRec "9" := by simpa using hx
      subst hx'
      decide)
    (by decide)

end LRE
